import Mathlib

/-!
Verification of the webtools-expressapi dispatch pipeline and schema
validation engine.  The definitions below are a shallow embedding of the
TypeScript sources:

* `src/validation/base.ts`        — `ValidationError`, `BaseSchema.safeParse`
* `src/validation/primordials.ts` — `StringSchema`, `NumberSchema`, `BooleanSchema`
* `src/validation/SchemaComposite.ts` — `ObjectSchema`, `UnionSchema`
* `src/web/HttpServer.ts` (final revision) — `requestListener`,
  `findMatchingRoute`, `extractRouteParams`, `handleNotFound`
* `src/helpers/string.ts`         — `StringHelper.normalizePath`
* `routing/router.ts`             — `Router.addRoute`, `Router.mountRouter`

JavaScript runtime values are modelled by `JSValue`; the host coercions
`String(x)` and `Number(x)` are modelled by `jsToString` and `toNumber`
(exact on the value universe used here: decimal numeric literals,
strings, booleans, null/undefined, plain objects and arrays).
-/

namespace ExpressApi

/-- A JavaScript runtime value, restricted to the shapes that can reach the
validation and dispatch code: JSON-like data plus `undefined`.  Numbers are
modelled as exact rationals (the code performs no arithmetic on them, so
decimal literals are represented exactly). -/
inductive JSValue where
  | undefined : JSValue
  | null : JSValue
  | boolean (b : Bool) : JSValue
  | number (q : Rat) : JSValue
  | str (s : String) : JSValue
  | object (fields : List (String × JSValue)) : JSValue
  | array (elems : List JSValue) : JSValue
deriving Repr

/-- Result of JavaScript `Number(x)`: either NaN or an exact value. -/
inductive JSNum where
  | nan : JSNum
  | val (q : Rat) : JSNum
deriving Repr, DecidableEq

/-- `s.startsWith p`, computed structurally on the character lists (the
core `String.startsWith` does not reduce in the kernel). -/
def strStartsWith (s p : String) : Bool :=
  p.toList.isPrefixOf s.toList

/-- `s.endsWith p`, computed structurally on the character lists. -/
def strEndsWith (s p : String) : Bool :=
  p.toList.reverse.isPrefixOf s.toList.reverse

/-- `s.trim`, computed structurally on the character list. -/
def strTrim (s : String) : String :=
  String.mk (((s.toList.dropWhile Char.isWhitespace).reverse.dropWhile
    Char.isWhitespace).reverse)

/-- Digits to a natural number (helper for the decimal-literal parser). -/
def digitsToNat (cs : List Char) : Nat :=
  cs.foldl (fun a c => a * 10 + (c.toNat - 48)) 0

/-- JavaScript string-to-number coercion, on the decimal-literal fragment:
optional sign, integer digits, optional fraction.  (Hex, exponents and
`Infinity` do not occur in the inputs considered here.) -/
def parseDecimal (t : String) : JSNum :=
  let sign : Rat := if strStartsWith t "-" then -1 else 1
  let rest := if strStartsWith t "-" ∨ strStartsWith t "+" then t.drop 1 else t
  let cs := rest.toList
  let intDigits := cs.takeWhile Char.isDigit
  let rest2 := cs.drop intDigits.length
  match rest2 with
  | [] =>
    if intDigits.isEmpty then JSNum.nan
    else JSNum.val (sign * (digitsToNat intDigits : Rat))
  | c :: fr =>
    if c = '.' ∧ fr.all Char.isDigit ∧ ¬(intDigits.isEmpty ∧ fr.isEmpty) then
      JSNum.val (sign * ((digitsToNat intDigits : Rat) +
        (digitsToNat fr : Rat) / ((10 : Rat) ^ fr.length)))
    else JSNum.nan

/-- `Number(s)` for a string: whitespace-trimmed; empty string is 0. -/
def strToNum (s : String) : JSNum :=
  let t := strTrim s
  if t = "" then JSNum.val 0 else parseDecimal t

/-- Decimal digits of `num/den` after the point (fuel-bounded long division;
exact whenever the expansion terminates, which is the case for every number
produced by `parseDecimal`). -/
def fracDigits (den : Nat) : Nat → Nat → String
  | _, 0 => ""
  | num, fuel + 1 =>
    if num = 0 then ""
    else
      let num10 := num * 10
      toString (num10 / den) ++ fracDigits den (num10 % den) fuel

/-- Rendering of a number as JavaScript `String(x)` renders it (exact for
terminating decimal expansions). -/
def numToString (q : Rat) : String :=
  let sign := if q < 0 then "-" else ""
  let n := q.num.natAbs
  let ip := n / q.den
  let rem := n % q.den
  sign ++ toString ip ++ (if rem = 0 then "" else "." ++ fracDigits q.den rem 40)

mutual

/-- JavaScript `String(x)` on the modelled value universe. -/
def jsToString : JSValue → String
  | .undefined => "undefined"
  | .null => "null"
  | .boolean b => if b then "true" else "false"
  | .number q => numToString q
  | .str s => s
  | .object _ => "[object Object]"
  | .array xs => String.intercalate "," (jsToStringList xs)

/-- Array elements under `Array.prototype.toString`: null/undefined render
as the empty string, every other element via `String(x)`. -/
def jsToStringList : List JSValue → List String
  | [] => []
  | v :: rest =>
    (match v with
     | .undefined => ""
     | .null => ""
     | v' => jsToString v') :: jsToStringList rest

end

/-- JavaScript `Number(x)` on the modelled value universe (`ToNumber`):
objects coerce through their string form, which for a plain object is
`"[object Object]"` (NaN) and for an array is the comma-joined elements. -/
def toNumber : JSValue → JSNum
  | .undefined => JSNum.nan
  | .null => JSNum.val 0
  | .boolean b => JSNum.val (if b then 1 else 0)
  | .number q => JSNum.val q
  | .str s => strToNum s
  | .object _ => JSNum.nan
  | .array xs => strToNum (jsToString (.array xs))

/-- JavaScript `typeof x` as a string. -/
def typeofStr : JSValue → String
  | .undefined => "undefined"
  | .null => "object"
  | .boolean _ => "boolean"
  | .number _ => "number"
  | .str _ => "string"
  | .object _ => "object"
  | .array _ => "object"

/-- Property read `obj[key]`: an absent key yields `undefined`. -/
def getField (fields : List (String × JSValue)) (key : String) : JSValue :=
  match fields.find? (fun p => p.1 == key) with
  | some p => p.2
  | none => JSValue.undefined

/-- Property write `obj[key] = v`: overwrites in place when the key exists,
otherwise appends (JavaScript property insertion order). -/
def putField {α : Type} (fields : List (String × α)) (key : String) (v : α) :
    List (String × α) :=
  if fields.any (fun p => p.1 == key) then
    fields.map (fun p => if p.1 == key then (key, v) else p)
  else fields ++ [(key, v)]

/-! ### Validation core (`src/validation/base.ts`) -/

/-- One validation issue: `{ path: (string | number)[], message, code }`. -/
structure Issue where
  path : List (String ⊕ Nat)
  message : String
  code : String
deriving Repr, DecidableEq

/-- `ValidationError` carries an ordered list of issues. -/
structure ValidationError where
  issues : List Issue
deriving Repr, DecidableEq

/-- A thrown JavaScript exception, as seen by the validation layer: either a
`ValidationError` or any other error (carried as its string form). -/
inductive ParseErr where
  | validation (e : ValidationError) : ParseErr
  | other (message : String) : ParseErr
deriving Repr, DecidableEq

/-- `BaseSchema.createError`: a single-issue `ValidationError`. -/
def createError (path : List (String ⊕ Nat)) (message : String) (code : String) :
    ValidationError :=
  ⟨[⟨path, message, code⟩]⟩

/-- `ValidationResult<T>` of `base.ts`, with `T` erased to `JSValue`. -/
inductive ValidationResult where
  | success (data : JSValue) : ValidationResult
  | failure (error : ValidationError) : ValidationResult
deriving Repr

/-- A schema's `parse`, abstractly: it returns a value or throws. -/
abbrev ParseFn := JSValue → Except ParseErr JSValue

/-- `BaseSchema.safeParse`: wraps the abstract `parse` in try/catch, catching
exactly `ValidationError` and rethrowing anything else. -/
def safeParse (parse : ParseFn) (data : JSValue) :
    Except ParseErr ValidationResult :=
  match parse data with
  | .ok d => .ok (.success d)
  | .error (.validation e) => .ok (.failure e)
  | .error (.other m) => .error (.other m)

/-! ### Primitive schemas (`src/validation/primordials.ts`) -/

/-- Throw `e` when `cond` holds, mirroring the sequential
`if (...) throw this.createError(...)` guards of the source. -/
def guardC (cond : Bool) (e : ValidationError) : Except ParseErr Unit :=
  if cond then .error (.validation e) else .ok ()

/-- Constraint state of `StringSchema` (the regex-based constraints
`regex`/`email`/`uuid`/`url` are omitted: no claim exercises them and they
sit after every constraint modelled here). -/
structure StringSchema where
  message : Option String
  minLength : Option (Nat × String)
  maxLength : Option (Nat × String)
  exactLength : Option (Nat × String)
  startsWithC : Option (String × String)
  endsWithC : Option (String × String)

/-- `new StringSchema(message?)`. -/
def stringSchema (message : Option String) : StringSchema :=
  ⟨message, none, none, none, none, none⟩

/-- `StringSchema.min(length, message?)`. -/
def StringSchema.min (s : StringSchema) (length : Nat) (message : Option String) :
    StringSchema :=
  { s with
    minLength := some (length, message.getD (s.message.getD
      s!"String must be at least {length} characters")) }

/-- `StringSchema.max(length, message?)`. -/
def StringSchema.max (s : StringSchema) (length : Nat) (message : Option String) :
    StringSchema :=
  { s with
    maxLength := some (length, message.getD (s.message.getD
      s!"String must be at most {length} characters")) }

/-- Is a `(bound, message)` length constraint present and violated low? -/
def lenTooSmall (c : Option (Nat × String)) (len : Nat) : Bool :=
  match c with
  | some p => len < p.1
  | none => false

/-- Is a `(bound, message)` length constraint present and violated high? -/
def lenTooBig (c : Option (Nat × String)) (len : Nat) : Bool :=
  match c with
  | some p => len > p.1
  | none => false

/-- Is an exact-length constraint present and violated? -/
def lenNotExact (c : Option (Nat × String)) (len : Nat) : Bool :=
  match c with
  | some p => len ≠ p.1
  | none => false

/-- The message of an optional `(value, message)` constraint. -/
def cMsg {α : Type} (c : Option (α × String)) : String :=
  match c with
  | some p => p.2
  | none => ""

/-- `StringSchema.parse`: stringify, then check the constraints in source
order (min, max, exact length, startsWith, endsWith). -/
def StringSchema.parse (s : StringSchema) (data : JSValue) :
    Except ParseErr JSValue := do
  let str := jsToString data
  guardC (lenTooSmall s.minLength str.length) (createError [] (cMsg s.minLength) "too_small")
  guardC (lenTooBig s.maxLength str.length) (createError [] (cMsg s.maxLength) "too_big")
  guardC (lenNotExact s.exactLength str.length) (createError [] (cMsg s.exactLength) "invalid_length")
  guardC (match s.startsWithC with
          | some p => !strStartsWith str p.1
          | none => false)
    (createError [] (cMsg s.startsWithC) "invalid_string")
  guardC (match s.endsWithC with
          | some p => !strEndsWith str p.1
          | none => false)
    (createError [] (cMsg s.endsWithC) "invalid_string")
  pure (JSValue.str str)

/-- Constraint state of `NumberSchema`; the `isInt`/`isPositive`/`isNegative`
fields hold the error message when the constraint was declared. -/
structure NumberSchema where
  message : Option String
  minValue : Option (Rat × String)
  maxValue : Option (Rat × String)
  isInt : Option String
  isPositive : Option String
  isNegative : Option String

/-- `new NumberSchema(message?)`. -/
def numberSchema (message : Option String) : NumberSchema :=
  ⟨message, none, none, none, none, none⟩

/-- `NumberSchema.min(value, message?)`. -/
def NumberSchema.min (s : NumberSchema) (value : Rat) (message : Option String) :
    NumberSchema :=
  { s with
    minValue := some (value, message.getD (s.message.getD
      s!"Number must be at least {numToString value}")) }

/-- `NumberSchema.max(value, message?)`. -/
def NumberSchema.max (s : NumberSchema) (value : Rat) (message : Option String) :
    NumberSchema :=
  { s with
    maxValue := some (value, message.getD (s.message.getD
      s!"Number must be at most {numToString value}")) }

/-- `NumberSchema.int(message?)`. -/
def NumberSchema.int (s : NumberSchema) (message : Option String) : NumberSchema :=
  { s with isInt := some (message.getD (s.message.getD "Expected integer, got float")) }

/-- `NumberSchema.positive(message?)`. -/
def NumberSchema.positive (s : NumberSchema) (message : Option String) : NumberSchema :=
  { s with isPositive := some (message.getD (s.message.getD "Number must be positive")) }

/-- `NumberSchema.negative(message?)`. -/
def NumberSchema.negative (s : NumberSchema) (message : Option String) : NumberSchema :=
  { s with isNegative := some (message.getD (s.message.getD "Number must be negative")) }

/-- JavaScript truthiness of an optional string field (`this.isInt && ...`):
absent and the empty string are falsy. -/
def strTruthy (o : Option String) : Bool :=
  match o with
  | some m => m ≠ ""
  | none => false

/-- Is a `(bound, message)` numeric constraint present with `num` below it? -/
def numTooSmall (c : Option (Rat × String)) (num : Rat) : Bool :=
  match c with
  | some p => num < p.1
  | none => false

/-- Is a `(bound, message)` numeric constraint present with `num` above it? -/
def numTooBig (c : Option (Rat × String)) (num : Rat) : Bool :=
  match c with
  | some p => num > p.1
  | none => false

/-- `NumberSchema.parse`: coerce with `Number(data)`; NaN is `invalid_type`;
then check the constraints in source order
(int, min, max, positive, negative). -/
def NumberSchema.parse (s : NumberSchema) (data : JSValue) :
    Except ParseErr JSValue := do
  match toNumber data with
  | .nan =>
    throw (ParseErr.validation (createError []
      (s.message.getD s!"Cannot convert \"{jsToString data}\" to number")
      "invalid_type"))
  | .val num =>
    guardC (strTruthy s.isInt && !(num.den == 1))
      (createError [] (s.isInt.getD "") "invalid_type")
    guardC (numTooSmall s.minValue num) (createError [] (cMsg s.minValue) "too_small")
    guardC (numTooBig s.maxValue num) (createError [] (cMsg s.maxValue) "too_big")
    guardC (strTruthy s.isPositive && decide (num ≤ 0))
      (createError [] (s.isPositive.getD "") "too_small")
    guardC (strTruthy s.isNegative && decide (num ≥ 0))
      (createError [] (s.isNegative.getD "") "too_big")
    pure (JSValue.number num)

/-- State of `BooleanSchema` (only the optional custom message). -/
structure BooleanSchema where
  message : Option String

/-- `BooleanSchema.parse`: stringify and compare against the literal tokens
accepted by the source (`"true" | "1" | "on"` and `"false" | "0" | "off"`,
exact case). -/
def BooleanSchema.parse (s : BooleanSchema) (data : JSValue) :
    Except ParseErr JSValue :=
  let str := jsToString data
  if str = "true" ∨ str = "1" ∨ str = "on" then
    .ok (JSValue.boolean true)
  else if str = "false" ∨ str = "0" ∨ str = "off" then
    .ok (JSValue.boolean false)
  else
    .error (ParseErr.validation (createError []
      (s.message.getD
        s!"Cannot convert \"{str}\" to boolean. Expected \"true\", \"false\", \"1\", or \"0\"")
      "invalid_type"))

/-! ### Composite schemas (`src/validation/SchemaComposite.ts`) -/

/-- Issues contributed by one failing object key: a `ValidationError`'s
issues get the key prefixed onto their paths; any other thrown error
becomes a single `custom_error` issue at the key. -/
def prefixIssues (key : String) (e : ParseErr) : List Issue :=
  match e with
  | .validation ve => ve.issues.map (fun i => ⟨Sum.inl key :: i.path, i.message, i.code⟩)
  | .other m => [⟨[Sum.inl key], m, "custom_error"⟩]

/-- `ObjectSchema`: a shape (declared keys with their sub-schemas' `parse`)
and an optional custom message. -/
structure ObjectSchema where
  shape : List (String × ParseFn)
  message : Option String

/-- One step of `ObjectSchema.parse`'s loop over the declared keys:
the key's value (`undefined` when absent) goes to the child schema; a
success is recorded in the result, a failure in the issue list. -/
def objectStep (fields : List (String × JSValue))
    (acc : List (String × JSValue) × List Issue) (ks : String × ParseFn) :
    List (String × JSValue) × List Issue :=
  match ks.2 (getField fields ks.1) with
  | .ok v => (putField acc.1 ks.1 v, acc.2)
  | .error e => (acc.1, acc.2 ++ prefixIssues ks.1 e)

/-- `ObjectSchema.parse`: requires a non-null, non-array object; validates
every declared key (collecting all issues); throws the aggregate when any
key failed. -/
def ObjectSchema.parse (s : ObjectSchema) (data : JSValue) :
    Except ParseErr JSValue :=
  match data with
  | .object fields =>
    let acc := s.shape.foldl (objectStep fields) ([], [])
    if acc.2.isEmpty then .ok (.object acc.1)
    else .error (.validation ⟨acc.2⟩)
  | _ =>
    .error (.validation (createError []
      (s.message.getD s!"Expected object, got {typeofStr data}") "invalid_type"))

/-- `UnionSchema`: member schemas (their `parse` functions) in declared
order, plus an optional custom message. -/
structure UnionSchema where
  schemas : List ParseFn
  message : Option String

/-- The loop of `UnionSchema.parse`: try each member in order, catching
every thrown error (`catch {}` in the source); when all members threw,
throw a single synthetic `invalid_union` issue. -/
def unionGo (message : Option String) : List ParseFn → JSValue → Except ParseErr JSValue
  | [], _ =>
    .error (.validation (createError []
      (message.getD "Value does not match any of the expected types") "invalid_union"))
  | m :: rest, data =>
    match m data with
    | .ok v => .ok v
    | .error _ => unionGo message rest data

/-- `UnionSchema.parse`. -/
def UnionSchema.parse (s : UnionSchema) (data : JSValue) : Except ParseErr JSValue :=
  unionGo s.message s.schemas data

/-! ### Path helpers (`src/helpers/string.ts`) -/

/-- Collapse every run of slashes to a single slash (the source's first
global replace, which rewrites each maximal run of `/` to one `/`). -/
def collapseSlashes (s : String) : String :=
  String.mk (s.toList.foldl
    (fun (acc : List Char × Bool) c =>
      if c = '/' then (if acc.2 then acc else (acc.1 ++ ['/'], true))
      else (acc.1 ++ [c], false))
    ([], false)).1

/-- `StringHelper.normalizePath(...parts)`: join with `/`, collapse slash
runs, strip one leading and one trailing slash, re-add the leading slash. -/
def normalizePath (parts : List String) : String :=
  let collapsed := collapseSlashes (String.intercalate "/" parts)
  let s1 := if strStartsWith collapsed "/" then collapsed.drop 1 else collapsed
  let s2 := if strEndsWith s1 "/" then s1.dropRight 1 else s1
  "/" ++ s2

/-! ### Routing data model (`routing/route.ts`, `http/request.ts`) -/

/-- The five registered HTTP methods (`http/methods.ts`, in
`Object.values` order). -/
inductive HttpMethod where
  | GET | POST | PUT | PATCH | DELETE
deriving Repr, DecidableEq

/-- `Object.values(HttpMethods)` — the `Map` key insertion order. -/
def httpMethodsList : List HttpMethod :=
  [.GET, .POST, .PUT, .PATCH, .DELETE]

/-- The raw method string of a request, cast to `HttpMethods` only when it
is one of the five registered methods (`this.routes.get(method)`). -/
def methodOfString : String → Option HttpMethod
  | "GET" => some .GET
  | "POST" => some .POST
  | "PUT" => some .PUT
  | "PATCH" => some .PATCH
  | "DELETE" => some .DELETE
  | _ => none

/-- The mutable request context threaded through the pipeline: normalized
path, raw method string, query/params records and the decoded body. -/
structure HttpRequest where
  url : String
  method : String
  query : List (String × JSValue)
  params : List (String × JSValue)
  body : JSValue

/-- A produced response: status plus an optional JSON payload
(`res.status(n).json(v)` yields a payload, `res.send(null)` none). -/
structure Response where
  status : Nat
  payload : Option JSValue

/-- A middleware may mutate the request and either short-circuit with a
response or let the pipeline continue. -/
abbrev Middleware := HttpRequest → HttpRequest × Option Response

/-- A handler returns a response or nothing. -/
abbrev Handler := HttpRequest → Option Response

/-- The optional per-section schemas of a route (`{query, params, body}`);
each entry is the schema's `parse`. -/
structure RouteSchemas where
  query : Option ParseFn
  params : Option ParseFn
  body : Option ParseFn

/-- A registered route. -/
structure Route where
  url : String
  method : HttpMethod
  middlewares : List Middleware
  schemas : Option RouteSchemas
  requestListener : Handler

/-! ### Path matching (`HttpServer.findMatchingRoute`) -/

/-- The structural worker for single-character split: accumulate the
current segment (reversed) and flush it at each separator. -/
def splitSlashAux (cur : List Char) : List Char → List String
  | [] => [String.mk cur.reverse]
  | c :: rest =>
    if c = '/' then String.mk cur.reverse :: splitSlashAux [] rest
    else splitSlashAux (c :: cur) rest

/-- `url.slice(1).split("/")`. -/
def splitPath (s : String) : List String :=
  splitSlashAux [] (s.drop 1).toList

/-- One pattern segment against one path segment, as the compiled regex
behaves on the route grammar (a named segment `:name` — a colon followed by
at least one character — compiles to `([^/]+)` and matches any non-empty
segment; a literal segment matches itself). -/
def segmentMatches (pat seg : String) : Bool :=
  if strStartsWith pat ":" ∧ 1 < pat.length then seg ≠ "" else pat = seg

/-- Whole-pattern match: the anchored regex succeeds exactly when the
segment counts agree and every segment pair matches. -/
def pathMatches (pattern path : String) : Bool :=
  let ps := splitPath pattern
  let ss := splitPath path
  ps.length == ss.length && (ps.zip ss).all (fun p => segmentMatches p.1 p.2)

/-! ### Router registry (`routing/router.ts`) -/

/-- A router: its own path base (constructor argument), the per-method
registry and the router-level middleware list. -/
structure Router where
  basePath : String
  routes : HttpMethod → List Route
  middlewares : List Middleware

/-- `Router.addRoute`: prefix the URL with the router's own base, reject a
duplicate (method, url) pair, else append to that method's list. -/
def Router.addRoute (rt : Router) (route : Route) : Except String Router :=
  let prefixedUrl := normalizePath [rt.basePath, route.url]
  if (rt.routes route.method).any (fun r => r.url == prefixedUrl) then
    .error s!"The route {prefixedUrl} is already registered for the method."
  else
    .ok { rt with
          routes := fun m =>
            if m = route.method then
              rt.routes m ++ [{ route with url := prefixedUrl }]
            else rt.routes m }

/-- `Router.use(middleware)`. -/
def Router.useMiddleware (rt : Router) (m : Middleware) : Router :=
  { rt with middlewares := rt.middlewares ++ [m] }

/-- The copy `mountRouter` makes of one mounted route: the mount prefix is
prepended to the URL and the mounted router's middlewares are prepended to
the route's own. -/
def mountCopy (pfx : String) (childMws : List Middleware) (r : Route) : Route :=
  { r with
    url := normalizePath [pfx, r.url],
    middlewares := childMws ++ r.middlewares }

/-- The inner loop of `Router.mountRouter` over one method's route list. -/
def mountRoutes (target : Router) (childMws : List Middleware) (pfx : String)
    (rs : List Route) : Except String Router :=
  rs.foldlM (fun acc r => acc.addRoute (mountCopy pfx childMws r)) target

/-- `Router.mountRouter(router, prefix)`: copy every route of the mounted
router (per method, in `Map` iteration order) into the target via
`addRoute`, with prefixed URL and the mounted router's middlewares
prepended. -/
def Router.mountRouter (target child : Router) (pfx : String) :
    Except String Router :=
  httpMethodsList.foldlM
    (fun acc m => mountRoutes acc child.middlewares pfx (child.routes m))
    target

/-! ### The dispatcher (`src/web/HttpServer.ts`, final revision) -/

/-- `extractRouteParams`' for-loop over the pattern's segments, as an index
recursion counting the remaining iterations: each named segment binds its
name to the path segment at the same index (out-of-range or empty reads
yield the empty string). -/
def extractLoop (routeParts urlParts : List String) :
    Nat → Nat → List (String × String) → List (String × String)
  | 0, _, params => params
  | fuel + 1, i, params =>
    let part := routeParts.getD i ""
    let params' :=
      if strStartsWith part ":" then putField params (part.drop 1) (urlParts.getD i "")
      else params
    extractLoop routeParts urlParts fuel (i + 1) params'

/-- `HttpServer.extractRouteParams(url, routeUrl)`: the loop runs once per
pattern segment, starting at index 0. -/
def extractRouteParams (url routeUrl : String) : List (String × String) :=
  extractLoop (splitPath routeUrl) (splitPath url) (splitPath routeUrl).length 0 []

/-- The server: per-method registry, global middlewares, and the
configurable not-found handler (the field holding the default lambda). -/
structure Server where
  routes : HttpMethod → List Route
  middlewares : List Middleware
  notFoundHandler : Handler

/-- Wire body of the built-in not-found response. -/
def notFoundBody : JSValue :=
  .object [("success", .boolean false), ("error", .str "404 Not Found.")]

/-- The default value of the `notFoundHandler` field. -/
def defaultNotFoundHandler : Handler :=
  fun _ => some ⟨404, some notFoundBody⟩

/-- `HttpServer.handleNotFound`: the configured handler's response, or the
built-in 404 JSON when it returns nothing. -/
def handleNotFound (nf : Handler) (req : HttpRequest) : Response :=
  match nf req with
  | some r => r
  | none => ⟨404, some notFoundBody⟩

/-- `HttpServer.findMatchingRoute(method, pathname)`: `Array.find` over the
method's list — the first pattern whose compiled regex accepts the path. -/
def findMatchingRoute (S : Server) (method : String) (pathname : String) :
    Option Route :=
  match methodOfString method with
  | none => none
  | some m => (S.routes m).find? (fun r => pathMatches r.url pathname)

/-- `executeMiddlewares`: run each middleware in order on the (mutable)
request; the first returned response short-circuits. -/
def runMiddlewares : List Middleware → HttpRequest → HttpRequest × Option Response
  | [], req => (req, none)
  | m :: ms, req =>
    match m req with
    | (req', some resp) => (req', some resp)
    | (req', none) => runMiddlewares ms req'

/-- An issue as it appears in a JSON `details` array. -/
def issueToJS (i : Issue) : JSValue :=
  .object
    [("path", .array (i.path.map (fun e =>
        match e with
        | Sum.inl s => JSValue.str s
        | Sum.inr n => JSValue.number (n : Rat)))),
     ("message", .str i.message),
     ("code", .str i.code)]

/-- The JSON body of a 400 validation response:
`{success:false, error: <text>, details: <issues>}`. -/
def errBody (text : String) (e : ValidationError) : JSValue :=
  .object
    [("success", .boolean false),
     ("error", .str text),
     ("details", .array (e.issues.map issueToJS))]

/-- `Object.assign(target, source)` where `target` is a plain record:
object sources copy their fields, array and string sources copy their
index-keyed entries, primitive sources contribute nothing. -/
def assignJS (target : List (String × JSValue)) (src : JSValue) :
    List (String × JSValue) :=
  match src with
  | .object fs => fs.foldl (fun t p => putField t p.1 p.2) target
  | .array xs => xs.enum.foldl (fun t p => putField t (toString p.1) p.2) target
  | .str s =>
    (s.toList.enum).foldl
      (fun t p => putField t (toString p.1) (JSValue.str (String.mk [p.2]))) target
  | _ => target

/-- The query-schema section of the dispatcher: on failure a 400 whose
error text is `"400 Bad Request."`; on success the validated data is
object-assigned over `req.query`. -/
def queryStep (sch : Option ParseFn) (req : HttpRequest) :
    Except ParseErr (Except Response HttpRequest) :=
  match sch with
  | none => .ok (.ok req)
  | some p =>
    match safeParse p (.object req.query) with
    | .ok (.success d) => .ok (.ok { req with query := assignJS req.query d })
    | .ok (.failure e) => .ok (.error ⟨400, some (errBody "400 Bad Request." e)⟩)
    | .error err => .error err

/-- The params-schema section: error text `"Invalid route parameters"`;
validated data object-assigned over `req.params`. -/
def paramsStep (sch : Option ParseFn) (req : HttpRequest) :
    Except ParseErr (Except Response HttpRequest) :=
  match sch with
  | none => .ok (.ok req)
  | some p =>
    match safeParse p (.object req.params) with
    | .ok (.success d) => .ok (.ok { req with params := assignJS req.params d })
    | .ok (.failure e) => .ok (.error ⟨400, some (errBody "Invalid route parameters" e)⟩)
    | .error err => .error err

/-- The body-schema section: error text `"Invalid request body"`; on
success `req.body` is replaced by the validated data. -/
def bodyStep (sch : Option ParseFn) (req : HttpRequest) :
    Except ParseErr (Except Response HttpRequest) :=
  match sch with
  | none => .ok (.ok req)
  | some p =>
    match safeParse p req.body with
    | .ok (.success d) => .ok (.ok { req with body := d })
    | .ok (.failure e) => .ok (.error ⟨400, some (errBody "Invalid request body" e)⟩)
    | .error err => .error err

/-- The `if (route.schemas)` block of `requestListener`: query, then
params, then body, stopping at the first failing section (a thrown
non-validation error stops everything). -/
def applySchemas (s : RouteSchemas) (req : HttpRequest) :
    Except ParseErr (Except Response HttpRequest) :=
  match queryStep s.query req with
  | .error err => .error err
  | .ok (.error resp) => .ok (.error resp)
  | .ok (.ok req1) =>
    match paramsStep s.params req1 with
    | .error err => .error err
    | .ok (.error resp) => .ok (.error resp)
    | .ok (.ok req2) => bodyStep s.body req2

/-- The raw transport-level request handed to `requestListener`: method
string, un-normalized pathname, search params in iteration order, and the
already-decoded body. -/
structure RawRequest where
  method : String
  pathname : String
  searchParams : List (String × String)
  rawBody : JSValue

/-- The request context as `requestListener` builds it before the global
middleware chain: normalized path, query record assigned from the search
params, empty params, and a `null` body for GET. -/
def initialRequest (rr : RawRequest) : HttpRequest :=
  { url := normalizePath [rr.pathname], method := rr.method,
    query := rr.searchParams.foldl (fun t p => putField t p.1 (.str p.2)) [],
    params := [],
    body := if rr.method = "GET" then JSValue.null else rr.rawBody }

/-- `Object.assign(req.params, extractRouteParams(normalized, route.url))`
after a route matched. -/
def injectParams (req : HttpRequest) (normalized routeUrl : String) : HttpRequest :=
  { req with
    params := (extractRouteParams normalized routeUrl).foldl
      (fun t p => putField t p.1 (.str p.2)) req.params }

/-- `HttpServer.requestListener`, one invocation per request.  The value is
`Except ParseErr Response` because a non-`ValidationError` exception thrown
inside a schema propagates out of the dispatcher uncaught. -/
def requestListener (S : Server) (rr : RawRequest) : Except ParseErr Response :=
  let normalized := normalizePath [rr.pathname]
  let req0 := initialRequest rr
  match runMiddlewares S.middlewares req0 with
  | (_, some resp) => .ok resp
  | (req1, none) =>
    if rr.method = "OPTIONS" then .ok ⟨200, none⟩
    else
      match findMatchingRoute S rr.method normalized with
      | none => .ok (handleNotFound S.notFoundHandler req1)
      | some route =>
        let req2 := injectParams req1 normalized route.url
        match (match route.schemas with
               | none => Except.ok (Except.ok req2)
               | some s => applySchemas s req2) with
        | .error err => .error err
        | .ok (.error resp) => .ok resp
        | .ok (.ok req3) =>
          match runMiddlewares route.middlewares req3 with
          | (_, some resp) => .ok resp
          | (req4, none) =>
            match route.requestListener req4 with
            | some resp => .ok resp
            | none => .ok (handleNotFound S.notFoundHandler req4)

/-- The effect of one `extractRouteParams` loop iteration, read off a
(pattern segment, path segment) pair. -/
def extractStep (params : List (String × String)) (pu : String × String) :
    List (String × String) :=
  if strStartsWith pu.1 ":" then putField params (pu.1.drop 1) pu.2 else params

/-- The names of a pattern's named segments, in pattern order. -/
def namedSegNames (routeUrl : String) : List String :=
  (splitPath routeUrl).filterMap
    (fun p => if strStartsWith p ":" then some (p.drop 1) else none)

/-! ### Concrete instances used by the theorems below -/

/-- A middleware that lets every request through unchanged. -/
def passMw0 : Middleware := fun req => (req, none)

/-- A second pass-through middleware (kept distinct from `passMw0` so that
middleware lists below have recognisable positions). -/
def passMw1 : Middleware := fun req => (req, none)

/-- A third pass-through middleware. -/
def passMw2 : Middleware := fun req => (req, none)

/-- A handler that returns no response. -/
def silentHandler : Handler := fun _ => none

/-- A route at `/x` carrying its own middleware, for the mount example. -/
def mountExRoute : Route :=
  { url := "/x", method := .GET, middlewares := [passMw2], schemas := none,
    requestListener := silentHandler }

/-- A target router that itself owns one middleware. -/
def mountExTarget : Router :=
  { basePath := "/", routes := fun _ => [], middlewares := [passMw0] }

/-- A child router owning one middleware and the `/x` route. -/
def mountExChild : Router :=
  { basePath := "/",
    routes := fun m => if m = .GET then [mountExRoute] else [],
    middlewares := [passMw1] }

/-- A route whose query schema declares only the key `a` (a plain string)
and whose handler echoes `req.query` back as the response payload. -/
def queryEchoRoute : Route :=
  { url := "/q", method := .GET, middlewares := [],
    schemas := some
      ⟨some (ObjectSchema.parse ⟨[("a", StringSchema.parse (stringSchema none))], none⟩),
       none, none⟩,
    requestListener := fun req => some ⟨200, some (.object req.query)⟩ }

/-- A server exposing only `queryEchoRoute`. -/
def queryEchoServer : Server :=
  { routes := fun m => if m = .GET then [queryEchoRoute] else [],
    middlewares := [], notFoundHandler := defaultNotFoundHandler }

/-- A route at `/u/:id` whose params schema requires `id` to be numeric. -/
def paramsExRoute : Route :=
  { url := "/u/:id", method := .GET, middlewares := [],
    schemas := some
      ⟨none,
       some (ObjectSchema.parse ⟨[("id", NumberSchema.parse (numberSchema none))], none⟩),
       none⟩,
    requestListener := fun _ => some ⟨200, none⟩ }

/-- A server exposing only `paramsExRoute`. -/
def paramsExServer : Server :=
  { routes := fun m => if m = .GET then [paramsExRoute] else [],
    middlewares := [], notFoundHandler := defaultNotFoundHandler }

/-- The parametric route `/a/:id`, registered before `/a/static`. -/
def paramFirstRoute : Route :=
  { url := "/a/:id", method := .GET, middlewares := [], schemas := none,
    requestListener := silentHandler }

/-- The literal route `/a/static`, registered after `/a/:id`. -/
def staticSecondRoute : Route :=
  { url := "/a/static", method := .GET, middlewares := [], schemas := none,
    requestListener := silentHandler }

/-- A server with `/a/:id` registered before `/a/static`. -/
def orderExServer : Server :=
  { routes := fun m => if m = .GET then [paramFirstRoute, staticSecondRoute] else [],
    middlewares := [], notFoundHandler := defaultNotFoundHandler }

/-! ## Theorems -/

/-- C1: for every schema `parse` and input, `safeParse` never raises a
validation failure; it returns `{success:true, data}` exactly when `parse`
returns that `data`, returns `{success:false, error}` exactly when `parse`
throws that `ValidationError`, and any non-validation exception thrown by
`parse` propagates unchanged out of `safeParse`. -/
theorem safeParse_mirrors_parse :
    ∀ (p : ParseFn) (v : JSValue),
      (∀ d, safeParse p v = .ok (.success d) ↔ p v = .ok d) ∧
      (∀ e, safeParse p v = .ok (.failure e) ↔ p v = .error (.validation e)) ∧
      (∀ m, safeParse p v = .error (.other m) ↔ p v = .error (.other m)) ∧
      (∀ e, ¬ safeParse p v = .error (.validation e)) := by
  intro p v
  unfold safeParse
  cases h : p v with
  | ok d => simp
  | error err => cases err <;> simp

/-- Witness for C1 at a concrete schema and input. -/
theorem safeParse_mirrors_parse_witness :
    safeParse (fun _ => .ok JSValue.null) JSValue.undefined =
      .ok (.success JSValue.null) :=
  ((safeParse_mirrors_parse (fun _ => .ok JSValue.null) JSValue.undefined).1
    JSValue.null).mpr rfl

/-- C9: `UnionSchema.parse` catches every exception a member throws —
validation or not — and moves on to the next member; when every member
throws it raises a single `invalid_union` issue with empty path, i.e. every
branch failure is discarded and no non-validation failure escapes. -/
theorem unionParse_catches_everything :
    ∀ (msg : Option String) (v : JSValue),
      (∀ (m : ParseFn) (rest : List ParseFn) (e : ParseErr),
          m v = .error e →
          UnionSchema.parse ⟨m :: rest, msg⟩ v = UnionSchema.parse ⟨rest, msg⟩ v) ∧
      (∀ ms : List ParseFn,
          (∀ m ∈ ms, ∃ e, m v = .error e) →
          UnionSchema.parse ⟨ms, msg⟩ v =
            .error (.validation (createError []
              (msg.getD "Value does not match any of the expected types")
              "invalid_union"))) := by
  intro msg v
  constructor
  · intro m rest e h
    simp [UnionSchema.parse, unionGo, h]
  · intro ms h
    induction ms with
    | nil => simp [UnionSchema.parse, unionGo]
    | cons m rest ih =>
      obtain ⟨e, he⟩ := h m (List.mem_cons_self m rest)
      have ih' := ih (fun m' hm' => h m' (List.mem_cons_of_mem m hm'))
      simpa [UnionSchema.parse, unionGo, he] using ih'

/-- Witness for C9: a union whose only member throws a non-validation
error still resolves to the synthetic `invalid_union` issue. -/
theorem unionParse_catches_everything_witness :
    UnionSchema.parse ⟨[fun _ => .error (.other "boom")], none⟩ JSValue.null =
      .error (.validation (createError []
        "Value does not match any of the expected types" "invalid_union")) :=
  (unionParse_catches_everything none JSValue.null).2
    [fun _ => .error (.other "boom")]
    (by
      intro m hm
      simp only [List.mem_singleton] at hm
      subst hm
      exact ⟨.other "boom", rfl⟩)

/-- An absent key reads as `undefined`. -/
theorem getField_of_absent (fields : List (String × JSValue)) (k : String)
    (h : ∀ p ∈ fields, p.1 ≠ k) : getField fields k = JSValue.undefined := by
  unfold getField
  have : fields.find? (fun p => p.1 == k) = none := by
    rw [List.find?_eq_none]
    intro p hp
    simpa using h p hp
  rw [this]

/-- C10: an object schema hands the child schema the host's `undefined`
for an absent declared key, and the string schema stringifies its input
before checking constraints — so an object lacking key `k` parses
successfully, binding `k` to whatever the string schema makes of
`undefined`; in particular with `string().min(3)` it binds the literal
9-character string `"undefined"` instead of reporting a missing field. -/
theorem objectParse_absent_key_stringifies :
    (∀ (k : String) (s : StringSchema) (msg : Option String)
        (fields : List (String × JSValue)) (d : JSValue),
        (∀ p ∈ fields, p.1 ≠ k) →
        StringSchema.parse s JSValue.undefined = .ok d →
        ObjectSchema.parse ⟨[(k, StringSchema.parse s)], msg⟩ (.object fields) =
          .ok (.object [(k, d)])) ∧
    StringSchema.parse ((stringSchema none).min 3 none) JSValue.undefined =
      .ok (.str "undefined") := by
  constructor
  · intro k s msg fields d habsent hparse
    simp [ObjectSchema.parse, objectStep, getField_of_absent fields k habsent,
      hparse, putField]
  · rfl

/-- Witness for C10: `{name: string().min(3)}` on the empty object. -/
theorem objectParse_absent_key_stringifies_witness :
    ObjectSchema.parse
        ⟨[("name", StringSchema.parse ((stringSchema none).min 3 none))], none⟩
        (.object []) =
      .ok (.object [("name", .str "undefined")]) :=
  objectParse_absent_key_stringifies.1 "name" ((stringSchema none).min 3 none)
    none [] (.str "undefined") (by intro p hp; cases hp)
    objectParse_absent_key_stringifies.2

/-- C5 counterexample: the claim says the accepted tokens are exactly
`"true"/"1"` and `"false"/"0"` compared case-insensitively, but the code
also coerces `"on"` to `true`, and rejects `"TRUE"` (the comparison is
case-sensitive). -/
theorem booleanParse_counterexample :
    BooleanSchema.parse ⟨none⟩ (.str "on") = .ok (.boolean true) ∧
    BooleanSchema.parse ⟨none⟩ (.str "TRUE") =
      .error (.validation (createError []
        "Cannot convert \"TRUE\" to boolean. Expected \"true\", \"false\", \"1\", or \"0\""
        "invalid_type")) :=
  ⟨rfl, rfl⟩

/-- C5 (amended): the boolean schema's `parse` coerces to `true` exactly
when the stringified input is one of the exact-case tokens
`"true"/"1"/"on"`, to `false` exactly for `"false"/"0"/"off"`, and fails
with code `invalid_type` on every other input. -/
theorem booleanParse_tokens :
    ∀ (s : BooleanSchema) (v : JSValue),
      (BooleanSchema.parse s v = .ok (.boolean true) ↔
        (jsToString v = "true" ∨ jsToString v = "1" ∨ jsToString v = "on")) ∧
      (BooleanSchema.parse s v = .ok (.boolean false) ↔
        (jsToString v = "false" ∨ jsToString v = "0" ∨ jsToString v = "off")) ∧
      (¬(jsToString v = "true" ∨ jsToString v = "1" ∨ jsToString v = "on" ∨
          jsToString v = "false" ∨ jsToString v = "0" ∨ jsToString v = "off") →
        BooleanSchema.parse s v = .error (.validation (createError []
          (s.message.getD
            s!"Cannot convert \"{jsToString v}\" to boolean. Expected \"true\", \"false\", \"1\", or \"0\"")
          "invalid_type"))) := by
  intro s v
  unfold BooleanSchema.parse
  by_cases h1 : jsToString v = "true" ∨ jsToString v = "1" ∨ jsToString v = "on"
  · rw [if_pos h1]
    refine ⟨by simp [h1], ⟨fun hc => absurd hc (by simp), fun hc => ?_⟩,
      fun hc => absurd (by tauto) hc⟩
    rcases h1 with h | h | h <;> rw [h] at hc <;>
      rcases hc with h' | h' | h' <;> simp_all
  · rw [if_neg h1]
    by_cases h2 : jsToString v = "false" ∨ jsToString v = "0" ∨ jsToString v = "off"
    · rw [if_pos h2]
      refine ⟨⟨fun hc => absurd hc (by simp), fun hc => absurd hc h1⟩,
        by simp [h2], fun hc => absurd (by tauto) hc⟩
    · rw [if_neg h2]
      exact ⟨⟨fun hc => absurd hc (by simp), fun hc => absurd hc h1⟩,
        ⟨fun hc => absurd hc (by simp), fun hc => absurd hc h2⟩,
        fun _ => rfl⟩

/-- Witness for C5's amended theorem at the rejected input `"maybe"`. -/
theorem booleanParse_tokens_witness :
    BooleanSchema.parse ⟨none⟩ (.str "maybe") =
      .error (.validation (createError []
        "Cannot convert \"maybe\" to boolean. Expected \"true\", \"false\", \"1\", or \"0\""
        "invalid_type")) :=
  (booleanParse_tokens ⟨none⟩ (.str "maybe")).2.2 (by decide)

/-- A satisfied guard lets the chain continue. -/
@[simp] theorem guardC_false_eq (e : ValidationError) : guardC false e = .ok () := rfl

/-- A violated guard throws its error. -/
@[simp] theorem guardC_true_eq (e : ValidationError) :
    guardC true e = .error (.validation e) := rfl

/-- A thrown error short-circuits the rest of a parse chain. -/
@[simp] theorem except_error_bind {α β : Type} (e : ParseErr)
    (f : α → Except ParseErr β) : (Except.error e >>= f) = Except.error e := rfl

/-- A unit success continues the parse chain. -/
@[simp] theorem except_ok_unit_bind {β : Type} (f : Unit → Except ParseErr β) :
    (Except.ok () >>= f) = f () := rfl

/-- C6 counterexample: with both `positive()` and `max(-10)` declared and
input `-5` (violating both), the code reports the `max` violation
(`too_big`), not the `positive` one the claimed order
integer → positive → negative → min → max would give. -/
theorem numberParse_order_counterexample :
    NumberSchema.parse (((numberSchema none).positive none).max (-10) none)
        (.number (-5)) =
      .error (.validation (createError [] "Number must be at most -10" "too_big")) ∧
    ¬ NumberSchema.parse (((numberSchema none).positive none).max (-10) none)
        (.number (-5)) =
      .error (.validation (createError [] "Number must be positive" "too_small")) := by
  refine ⟨rfl, fun h => ?_⟩
  rw [show NumberSchema.parse (((numberSchema none).positive none).max (-10) none)
        (.number (-5)) =
      .error (.validation (createError [] "Number must be at most -10" "too_big"))
    from rfl] at h
  simp [createError] at h

/-- C6 (amended): the number schema first coerces with the numeric parse
(`Number(x)`), failing with `invalid_type` on NaN; the declared constraints
are then checked in the fixed order integer, min, max, positive, negative,
so that with several simultaneous violations the single reported issue is
the earliest in that order. -/
theorem numberParse_check_order :
    ∀ (s : NumberSchema) (v : JSValue) (num : Rat),
      (toNumber v = .nan →
        NumberSchema.parse s v = .error (.validation (createError []
          (s.message.getD s!"Cannot convert \"{jsToString v}\" to number")
          "invalid_type"))) ∧
      (toNumber v = .val num →
        ((strTruthy s.isInt && !(num.den == 1)) = true →
          NumberSchema.parse s v =
            .error (.validation (createError [] (s.isInt.getD "") "invalid_type"))) ∧
        ((strTruthy s.isInt && !(num.den == 1)) = false →
          numTooSmall s.minValue num = true →
          NumberSchema.parse s v =
            .error (.validation (createError [] (cMsg s.minValue) "too_small"))) ∧
        ((strTruthy s.isInt && !(num.den == 1)) = false →
          numTooSmall s.minValue num = false →
          numTooBig s.maxValue num = true →
          NumberSchema.parse s v =
            .error (.validation (createError [] (cMsg s.maxValue) "too_big"))) ∧
        ((strTruthy s.isInt && !(num.den == 1)) = false →
          numTooSmall s.minValue num = false →
          numTooBig s.maxValue num = false →
          (strTruthy s.isPositive && decide (num ≤ 0)) = true →
          NumberSchema.parse s v =
            .error (.validation (createError [] (s.isPositive.getD "") "too_small"))) ∧
        ((strTruthy s.isInt && !(num.den == 1)) = false →
          numTooSmall s.minValue num = false →
          numTooBig s.maxValue num = false →
          (strTruthy s.isPositive && decide (num ≤ 0)) = false →
          (strTruthy s.isNegative && decide (num ≥ 0)) = true →
          NumberSchema.parse s v =
            .error (.validation (createError [] (s.isNegative.getD "") "too_big"))) ∧
        ((strTruthy s.isInt && !(num.den == 1)) = false →
          numTooSmall s.minValue num = false →
          numTooBig s.maxValue num = false →
          (strTruthy s.isPositive && decide (num ≤ 0)) = false →
          (strTruthy s.isNegative && decide (num ≥ 0)) = false →
          NumberSchema.parse s v = .ok (.number num))) := by
  intro s v num
  constructor
  · intro h
    unfold NumberSchema.parse
    rw [h]
    rfl
  · intro h
    refine ⟨fun h1 => ?_, fun h1 h2 => ?_, fun h1 h2 h3 => ?_,
      fun h1 h2 h3 h4 => ?_, fun h1 h2 h3 h4 h5 => ?_, fun h1 h2 h3 h4 h5 => ?_⟩
    · unfold NumberSchema.parse
      rw [h]
      simp [h1]
    · unfold NumberSchema.parse
      rw [h]
      simp [h1, h2]
    · unfold NumberSchema.parse
      rw [h]
      simp [h1, h2, h3]
    · unfold NumberSchema.parse
      rw [h]
      simp [h1, h2, h3, h4]
    · unfold NumberSchema.parse
      rw [h]
      simp [h1, h2, h3, h4, h5]
    · unfold NumberSchema.parse
      rw [h]
      simp [h1, h2, h3, h4, h5]

/-- Witness for C6's amended theorem: a lone `min(10)` violation on
input 3 reports `too_small` with the default message. -/
theorem numberParse_check_order_witness :
    NumberSchema.parse ((numberSchema none).min 10 none) (.number 3) =
      .error (.validation (createError [] "Number must be at least 10" "too_small")) :=
  ((numberParse_check_order ((numberSchema none).min 10 none) (.number 3) 3).2
    rfl).2.1 rfl (by decide)

/-- `Array.find` returns the first satisfying element. -/
theorem find?_append_first {α : Type} (p : α → Bool) :
    ∀ (pre : List α) (x : α) (post : List α),
      (∀ y ∈ pre, p y = false) → p x = true →
      (pre ++ x :: post).find? p = some x := by
  intro pre x post hpre hx
  induction pre with
  | nil => simp [List.find?_cons_of_pos, hx]
  | cons a rest ih =>
    have ha := hpre a (List.mem_cons_self a rest)
    rw [List.cons_append, List.find?_cons_of_neg _ (by simp [ha])]
    exact ih (fun y hy => hpre y (List.mem_cons_of_mem a hy))

/-- C3: the dispatcher picks the first registered route whose pattern
structurally matches the path, regardless of specificity; concretely, with
`/a/:id` registered before `/a/static`, a request to `/a/static` matches
the parametric route (both patterns match the path, registration order
decides), and parameter extraction binds `id` to `"static"`. -/
theorem findMatchingRoute_registration_order :
    (∀ (S : Server) (method : String) (hm : HttpMethod) (path : String)
        (pre : List Route) (r : Route) (post : List Route),
        methodOfString method = some hm →
        S.routes hm = pre ++ r :: post →
        (∀ r' ∈ pre, pathMatches r'.url path = false) →
        pathMatches r.url path = true →
        findMatchingRoute S method path = some r) ∧
    pathMatches "/a/:id" "/a/static" = true ∧
    pathMatches "/a/static" "/a/static" = true ∧
    findMatchingRoute orderExServer "GET" "/a/static" = some paramFirstRoute ∧
    extractRouteParams "/a/static" "/a/:id" = [("id", "static")] := by
  refine ⟨?_, rfl, rfl, ?_, rfl⟩
  · intro S method hm path pre r post hmeth hroutes hpre hr
    unfold findMatchingRoute
    rw [hmeth]
    show (S.routes hm).find? (fun r => pathMatches r.url path) = some r
    rw [hroutes]
    exact find?_append_first _ pre r post hpre hr
  · rfl

/-- Witness for C3's general first-match clause at the concrete server. -/
theorem findMatchingRoute_registration_order_witness :
    findMatchingRoute orderExServer "GET" "/a/static" = some paramFirstRoute :=
  findMatchingRoute_registration_order.1 orderExServer "GET" .GET "/a/static"
    [] paramFirstRoute [staticSecondRoute] rfl rfl
    (by intro r' hr'; cases hr') rfl

/-- Writing a key absent from the record appends it. -/
theorem putField_of_absent {α : Type} (fields : List (String × α)) (k : String)
    (v : α) (h : ∀ p ∈ fields, p.1 ≠ k) : putField fields k v = fields ++ [(k, v)] := by
  have hany : fields.any (fun p => p.1 == k) = false := by
    rw [List.any_eq_false]
    intro p hp
    simpa using h p hp
  unfold putField
  rw [hany]
  simp

/-- The index loop of `extractRouteParams`, run with the remaining
iteration count as fuel, folds `extractStep` over the zipped suffixes. -/
theorem extractLoop_eq_foldl (rps ups : List String) (hlen : ups.length = rps.length) :
    ∀ (fuel i : Nat) (params : List (String × String)),
      fuel = rps.length - i →
      extractLoop rps ups fuel i params =
        ((rps.drop i).zip (ups.drop i)).foldl extractStep params := by
  intro fuel
  induction fuel with
  | zero =>
    intro i params hfuel
    have hge : rps.length ≤ i := Nat.le_of_sub_eq_zero hfuel.symm
    rw [List.drop_eq_nil_of_le hge]
    rfl
  | succ n ih =>
    intro i params hfuel
    have hi : i < rps.length := by omega
    have hi' : i < ups.length := by omega
    rw [List.drop_eq_getElem_cons hi, List.drop_eq_getElem_cons hi']
    have hr : rps.getD i "" = rps[i] := by
      simp [List.getD_eq_getElem?_getD, List.getElem?_eq_getElem hi]
    have hu : ups.getD i "" = ups[i] := by
      simp [List.getD_eq_getElem?_getD, List.getElem?_eq_getElem hi']
    show extractLoop rps ups (n + 1) i params = _
    unfold extractLoop
    rw [hr, hu]
    rw [ih (i + 1) _ (by omega)]
    rfl

/-- Folding `extractStep` over pairs whose named segments carry pairwise
distinct names, all absent from the accumulator, appends one binding per
named pair in order. -/
theorem foldl_extractStep_append :
    ∀ (L : List (String × String)) (acc : List (String × String)),
      (L.filterMap (fun pu =>
        if strStartsWith pu.1 ":" then some (pu.1.drop 1) else none)).Nodup →
      (∀ p ∈ acc, ∀ n ∈ L.filterMap (fun pu =>
        if strStartsWith pu.1 ":" then some (pu.1.drop 1) else none), p.1 ≠ n) →
      L.foldl extractStep acc =
        acc ++ L.filterMap (fun pu =>
          if strStartsWith pu.1 ":" then some (pu.1.drop 1, pu.2) else none) := by
  intro L
  induction L with
  | nil => intro acc _ _; simp
  | cons pu rest ih =>
    intro acc hnodup hdisj
    simp only [List.filterMap_cons] at hnodup hdisj ⊢
    by_cases hc : strStartsWith pu.1 ":" = true
    · simp only [hc, if_true] at hnodup hdisj ⊢
      rw [List.nodup_cons] at hnodup
      have hname : ∀ p ∈ acc, p.1 ≠ pu.1.drop 1 := by
        intro p hp
        exact hdisj p hp _ (List.mem_cons_self _ _)
      have hstep : extractStep acc pu = acc ++ [(pu.1.drop 1, pu.2)] := by
        unfold extractStep
        rw [if_pos hc]
        exact putField_of_absent acc _ _ hname
      rw [List.foldl_cons, hstep, ih (acc ++ [(pu.1.drop 1, pu.2)]) hnodup.2 ?_]
      · simp
      · intro p hp n hn
        rcases List.mem_append.mp hp with hp' | hp'
        · exact hdisj p hp' n (List.mem_cons_of_mem _ hn)
        · have hpeq : p = (pu.1.drop 1, pu.2) := by simpa using hp'
          subst hpeq
          intro heq
          apply hnodup.1
          have : (pu.1.drop 1 : String) = n := heq
          rw [this]
          exact hn
    · have hc' : strStartsWith pu.1 ":" = false := by
        cases h : strStartsWith pu.1 ":"
        · rfl
        · exact absurd h hc
      simp only [hc', Bool.false_eq_true, if_false] at hnodup hdisj ⊢
      have hstep : extractStep acc pu = acc := by
        unfold extractStep
        rw [if_neg (by simp [hc'])]
      rw [List.foldl_cons, hstep]
      exact ih acc hnodup hdisj

/-- Zipping with an equally long list and projecting named-segment names
gives the pattern's named-segment names. -/
theorem zip_names_eq (rps : List String) :
    ∀ ups : List String, ups.length = rps.length →
      (rps.zip ups).filterMap (fun pu =>
        if strStartsWith pu.1 ":" then some (pu.1.drop 1) else none) =
      rps.filterMap (fun p => if strStartsWith p ":" then some (p.drop 1) else none) := by
  induction rps with
  | nil => intro ups _; simp
  | cons p rest ih =>
    intro ups hlen
    cases ups with
    | nil => simp at hlen
    | cons u urest =>
      simp only [List.zip_cons_cons, List.filterMap_cons]
      by_cases hc : strStartsWith p ":" = true
      · simp only [hc, if_true]
        rw [ih urest (by simpa using hlen)]
      · have hc' : strStartsWith p ":" = false := by
          cases h : strStartsWith p ":"
          · rfl
          · exact absurd h hc
        simp only [hc', Bool.false_eq_true, if_false]
        exact ih urest (by simpa using hlen)

/-- A successful match forces equal segment counts. -/
theorem pathMatches_length (pattern path : String)
    (h : pathMatches pattern path = true) :
    (splitPath path).length = (splitPath pattern).length := by
  unfold pathMatches at h
  rw [Bool.and_eq_true] at h
  have := h.1
  simp only [beq_iff_eq] at this
  exact this.symm

/-- C7 counterexample: the pattern `/:x/:x` has two named segments, but on
the matching path `/a/b` extraction produces a single binding (the record
write for the repeated name overwrites the first), not two. -/
theorem extractRouteParams_duplicate_name_counterexample :
    extractRouteParams "/a/b" "/:x/:x" = [("x", "b")] ∧
    (namedSegNames "/:x/:x").length = 2 ∧
    (extractRouteParams "/a/b" "/:x/:x").length ≠ 2 :=
  ⟨rfl, rfl, by decide⟩

/-- C7 (amended): for a pattern whose named segments have pairwise distinct
names, a structurally matching path yields exactly one binding per named
segment, keyed by the names in pattern order, each bound to the literal
text of the corresponding path segment. -/
theorem extractRouteParams_named_bindings :
    ∀ (routeUrl url : String),
      pathMatches routeUrl url = true →
      (namedSegNames routeUrl).Nodup →
      extractRouteParams url routeUrl =
        ((splitPath routeUrl).zip (splitPath url)).filterMap
          (fun pu => if strStartsWith pu.1 ":" then some (pu.1.drop 1, pu.2) else none) ∧
      (extractRouteParams url routeUrl).map Prod.fst = namedSegNames routeUrl ∧
      (extractRouteParams url routeUrl).length = (namedSegNames routeUrl).length := by
  intro routeUrl url hmatch hnodup
  have hlen : (splitPath url).length = (splitPath routeUrl).length :=
    pathMatches_length routeUrl url hmatch
  have hnames := zip_names_eq (splitPath routeUrl) (splitPath url) hlen
  have h1 : extractRouteParams url routeUrl =
      ((splitPath routeUrl).zip (splitPath url)).filterMap
        (fun pu => if strStartsWith pu.1 ":" then some (pu.1.drop 1, pu.2) else none) := by
    unfold extractRouteParams
    rw [extractLoop_eq_foldl (splitPath routeUrl) (splitPath url) hlen _ 0 [] (by omega)]
    simp only [List.drop_zero]
    rw [foldl_extractStep_append _ [] (by rw [hnames]; exact hnodup)
      (by intro p hp; cases hp)]
    simp
  have h2 : (extractRouteParams url routeUrl).map Prod.fst = namedSegNames routeUrl := by
    rw [h1, List.map_filterMap]
    rw [show (fun pu : String × String => (if strStartsWith pu.1 ":" then
        some (pu.1.drop 1, pu.2) else none).map Prod.fst) = (fun pu : String × String =>
        if strStartsWith pu.1 ":" then some (pu.1.drop 1) else none) from ?_]
    · exact hnames
    · funext pu
      by_cases hc : strStartsWith pu.1 ":" = true
      · rw [if_pos hc, if_pos hc]; rfl
      · rw [if_neg hc, if_neg hc]; rfl
  refine ⟨h1, h2, ?_⟩
  rw [← h2, List.length_map]

/-- Witness for C7's amended theorem at `/a/:id` on `/a/static`. -/
theorem extractRouteParams_named_bindings_witness :
    extractRouteParams "/a/static" "/a/:id" =
      ((splitPath "/a/:id").zip (splitPath "/a/static")).filterMap
        (fun pu => if strStartsWith pu.1 ":" then some (pu.1.drop 1, pu.2) else none) :=
  (extractRouteParams_named_bindings "/a/:id" "/a/static" rfl (by decide)).1

/-- C2 counterexample: the claim says a validated section REPLACES the
request field, but the code object-assigns the validated data over the
existing record: with query `a=hello&b=x` and a query schema declaring
only `a`, the handler still sees the unrelated key `b`. -/
theorem dispatcher_query_merge_counterexample :
    requestListener queryEchoServer
        ⟨"GET", "/q", [("a", "hello"), ("b", "x")], .null⟩ =
      .ok ⟨200, some (.object [("a", .str "hello"), ("b", .str "x")])⟩ ∧
    JSValue.object [("a", .str "hello"), ("b", .str "x")] ≠
      JSValue.object [("a", .str "hello")] := by
  refine ⟨rfl, fun h => ?_⟩
  simp at h

/-- C2 (amended): the dispatcher validates the declared sections in the
order query, params, body; the first failing section yields a 400 carrying
that section's issues, later sections are not consulted, and neither route
middleware nor the handler runs (the final clause holds for every
middleware list and handler); on success `req.query` and `req.params` are
object-assigned with the validated data (schema keys overwritten, other
keys retained) while `req.body` is replaced. -/
theorem dispatcher_validation_order :
    (∀ (s : RouteSchemas) (req : HttpRequest) (p : ParseFn) (e : ValidationError),
        s.query = some p →
        safeParse p (.object req.query) = .ok (.failure e) →
        applySchemas s req =
          .ok (.error ⟨400, some (errBody "400 Bad Request." e)⟩)) ∧
    (∀ (s : RouteSchemas) (req req1 : HttpRequest) (p : ParseFn) (e : ValidationError),
        queryStep s.query req = .ok (.ok req1) →
        s.params = some p →
        safeParse p (.object req1.params) = .ok (.failure e) →
        applySchemas s req =
          .ok (.error ⟨400, some (errBody "Invalid route parameters" e)⟩)) ∧
    (∀ (s : RouteSchemas) (req req1 req2 : HttpRequest) (p : ParseFn)
        (e : ValidationError),
        queryStep s.query req = .ok (.ok req1) →
        paramsStep s.params req1 = .ok (.ok req2) →
        s.body = some p →
        safeParse p req2.body = .ok (.failure e) →
        applySchemas s req =
          .ok (.error ⟨400, some (errBody "Invalid request body" e)⟩)) ∧
    (∀ (pq pp pb : ParseFn) (req : HttpRequest) (dq dp db : JSValue),
        safeParse pq (.object req.query) = .ok (.success dq) →
        safeParse pp (.object req.params) = .ok (.success dp) →
        safeParse pb req.body = .ok (.success db) →
        applySchemas ⟨some pq, some pp, some pb⟩ req =
          .ok (.ok { req with
                     query := assignJS req.query dq,
                     params := assignJS req.params dp,
                     body := db })) ∧
    (∀ (route : Route) (nf : Handler) (rr : RawRequest) (s : RouteSchemas)
        (hm : HttpMethod) (resp : Response),
        route.schemas = some s →
        methodOfString rr.method = some hm →
        rr.method ≠ "OPTIONS" →
        pathMatches route.url (normalizePath [rr.pathname]) = true →
        applySchemas s
          (injectParams (initialRequest rr) (normalizePath [rr.pathname]) route.url) =
          .ok (.error resp) →
        requestListener
          { routes := fun m => if m = hm then [route] else [],
            middlewares := [], notFoundHandler := nf } rr = .ok resp) := by
  refine ⟨?_, ?_, ?_, ?_, ?_⟩
  · intro s req p e hq hsf
    unfold applySchemas queryStep
    simp only [hq, hsf]
  · intro s req req1 p e hq hp hsf
    unfold applySchemas paramsStep
    simp only [hq, hp, hsf]
  · intro s req req1 req2 p e hq hpstep hb hsf
    unfold applySchemas bodyStep
    simp only [hq, hpstep, hb, hsf]
  · intro pq pp pb req dq dp db h1 h2 h3
    obtain ⟨u, me, q, pa, bo⟩ := req
    unfold applySchemas queryStep paramsStep bodyStep
    simp only at h1 h2 h3 ⊢
    simp only [h1, h2, h3]
  · intro route nf rr s hm resp hs hmeth hopt hmatch happ
    unfold requestListener
    simp only [runMiddlewares]
    rw [if_neg hopt]
    have hfind :
        findMatchingRoute
          { routes := fun m => if m = hm then [route] else [],
            middlewares := [], notFoundHandler := nf }
          rr.method (normalizePath [rr.pathname]) = some route := by
      unfold findMatchingRoute
      rw [hmeth]
      show List.find? _ (if hm = hm then [route] else []) = some route
      rw [if_pos rfl]
      simp [List.find?, hmatch]
    simp only [hfind, hs, happ]

/-- Witness for C2's amended theorem: the first (query-fails) clause at a
concrete schema and request. -/
theorem dispatcher_validation_order_witness :
    applySchemas
        ⟨some (NumberSchema.parse (numberSchema none)), none, none⟩
        { url := "/q", method := "GET", query := [("a", .str "zzz")], params := [],
          body := .null } =
      .ok (.error ⟨400, some (errBody "400 Bad Request."
        (createError [] "Cannot convert \"[object Object]\" to number"
          "invalid_type"))⟩) :=
  dispatcher_validation_order.1
    ⟨some (NumberSchema.parse (numberSchema none)), none, none⟩
    { url := "/q", method := "GET", query := [("a", .str "zzz")], params := [],
      body := .null }
    (NumberSchema.parse (numberSchema none)) _ rfl rfl

/-- C4 counterexample: a params-section validation failure is returned
with error text `"Invalid route parameters"`, not the claimed literal
`"400 Bad Request."` (which the code uses only for the query section). -/
theorem dispatcher_params_error_text_counterexample :
    requestListener paramsExServer ⟨"GET", "/u/abc", [], .null⟩ =
      .ok ⟨400, some (.object
        [("success", .boolean false),
         ("error", .str "Invalid route parameters"),
         ("details", .array
           [.object
             [("path", .array [.str "id"]),
              ("message", .str "Cannot convert \"abc\" to number"),
              ("code", .str "invalid_type")]])])⟩ ∧
    "Invalid route parameters" ≠ "400 Bad Request." :=
  ⟨rfl, by decide⟩

/-- C4 (amended): the dispatcher's validation failures all carry
`{success:false, error, details}` with the issues keyed `details`, but the
error text depends on the failing section — `"400 Bad Request."` for
query, `"Invalid route parameters"` for params, `"Invalid request body"`
for body; a routing miss resolved by the default not-found handler returns
`{success:false, error:"404 Not Found."}`. -/
theorem dispatcher_wire_shapes :
    (∀ (p : ParseFn) (req : HttpRequest) (e : ValidationError),
        safeParse p (.object req.query) = .ok (.failure e) →
        queryStep (some p) req =
          .ok (.error ⟨400, some (.object
            [("success", .boolean false),
             ("error", .str "400 Bad Request."),
             ("details", .array (e.issues.map issueToJS))])⟩)) ∧
    (∀ (p : ParseFn) (req : HttpRequest) (e : ValidationError),
        safeParse p (.object req.params) = .ok (.failure e) →
        paramsStep (some p) req =
          .ok (.error ⟨400, some (.object
            [("success", .boolean false),
             ("error", .str "Invalid route parameters"),
             ("details", .array (e.issues.map issueToJS))])⟩)) ∧
    (∀ (p : ParseFn) (req : HttpRequest) (e : ValidationError),
        safeParse p req.body = .ok (.failure e) →
        bodyStep (some p) req =
          .ok (.error ⟨400, some (.object
            [("success", .boolean false),
             ("error", .str "Invalid request body"),
             ("details", .array (e.issues.map issueToJS))])⟩)) ∧
    (∀ (S : Server) (rr : RawRequest),
        S.middlewares = [] →
        S.notFoundHandler = defaultNotFoundHandler →
        rr.method ≠ "OPTIONS" →
        findMatchingRoute S rr.method (normalizePath [rr.pathname]) = none →
        requestListener S rr =
          .ok ⟨404, some (.object
            [("success", .boolean false), ("error", .str "404 Not Found.")])⟩) := by
  refine ⟨?_, ?_, ?_, ?_⟩
  · intro p req e h
    unfold queryStep
    simp only [h]
    rfl
  · intro p req e h
    unfold paramsStep
    simp only [h]
    rfl
  · intro p req e h
    unfold bodyStep
    simp only [h]
    rfl
  · intro S rr hmw hnf hopt hfind
    unfold requestListener
    rw [hmw]
    simp only [runMiddlewares]
    rw [if_neg hopt]
    simp only [hfind, hnf]
    rfl

/-- Witness for C4's amended theorem: the params clause at a concrete
schema and request. -/
theorem dispatcher_wire_shapes_witness :
    paramsStep (some (NumberSchema.parse (numberSchema none)))
        { url := "/u/abc", method := "GET", query := [],
          params := [("id", .str "abc")], body := .null } =
      .ok (.error ⟨400, some (.object
        [("success", .boolean false),
         ("error", .str "Invalid route parameters"),
         ("details", .array
           ((createError [] "Cannot convert \"[object Object]\" to number"
              "invalid_type").issues.map issueToJS))])⟩) :=
  dispatcher_wire_shapes.2.1 (NumberSchema.parse (numberSchema none))
    { url := "/u/abc", method := "GET", query := [],
      params := [("id", .str "abc")], body := .null } _ rfl

/-- `Router.addRoute` on success: base path and middlewares untouched, the
route appended (with the router's own base prefixed) to its method list. -/
theorem addRoute_ok (rt : Router) (route : Route) (rt' : Router)
    (h : rt.addRoute route = .ok rt') :
    rt'.basePath = rt.basePath ∧ rt'.middlewares = rt.middlewares ∧
    ∀ m, rt'.routes m = rt.routes m ++
      (if m = route.method then
        [{ route with url := normalizePath [rt.basePath, route.url] }] else []) := by
  unfold Router.addRoute at h
  by_cases hd : (rt.routes route.method).any
      (fun r => r.url == normalizePath [rt.basePath, route.url]) = true
  · simp only [hd, if_true] at h
    cases h
  · simp only [hd, Bool.false_eq_true, if_false] at h
    injection h with h'
    subst h'
    refine ⟨rfl, rfl, fun m => ?_⟩
    by_cases hm : m = route.method
    · simp only [hm, if_true]
    · simp only [hm, Bool.false_eq_true, if_false, List.append_nil]

/-- The inner mount loop over one method's routes appends the copies, in
order, to that method's list only. -/
theorem mountRoutes_ok (cmws : List Middleware) (pfx : String) (m0 : HttpMethod) :
    ∀ (rs : List Route) (acc acc' : Router),
      (∀ r ∈ rs, r.method = m0) →
      mountRoutes acc cmws pfx rs = .ok acc' →
      acc'.basePath = acc.basePath ∧ acc'.middlewares = acc.middlewares ∧
      ∀ m, acc'.routes m = acc.routes m ++
        (if m = m0 then rs.map (fun r =>
          { r with url := normalizePath [acc.basePath, normalizePath [pfx, r.url]],
                   middlewares := cmws ++ r.middlewares }) else []) := by
  intro rs
  induction rs with
  | nil =>
    intro acc acc' _ h
    unfold mountRoutes at h
    simp only [List.foldlM_nil] at h
    injection h with h'
    subst h'
    simp
  | cons r rest ih =>
    intro acc acc' hall h
    unfold mountRoutes at h
    rw [List.foldlM_cons] at h
    cases ha : acc.addRoute (mountCopy pfx cmws r) with
    | error e =>
      rw [ha] at h
      cases h
    | ok acc1 =>
      rw [ha] at h
      have h2 : mountRoutes acc1 cmws pfx rest = .ok acc' := h
      obtain ⟨hb1, hm1, hr1⟩ := addRoute_ok acc (mountCopy pfx cmws r) acc1 ha
      obtain ⟨hb2, hm2, hr2⟩ :=
        ih acc1 acc' (fun x hx => hall x (List.mem_cons_of_mem r hx)) h2
      have hr0 : r.method = m0 := hall r (List.mem_cons_self r rest)
      subst hr0
      refine ⟨hb2.trans hb1, hm2.trans hm1, fun m => ?_⟩
      rw [hr2 m, hr1 m, hb1]
      show _ = _ ++ if m = r.method then _ :: _ else []
      by_cases hm : m = r.method
      · simp only [mountCopy, hm, if_true, List.map_cons, List.append_assoc,
          List.singleton_append]
      · simp only [mountCopy, hm, Bool.false_eq_true, if_false, List.append_nil]

/-- The mount fold over a duplicate-free list of methods appends, per
method in the list, that method's copied routes. -/
theorem foldMethods_ok (child : Router) (pfx : String) :
    ∀ (ms : List HttpMethod) (acc acc' : Router),
      (∀ m r, r ∈ child.routes m → r.method = m) →
      ms.Nodup →
      ms.foldlM (fun a m => mountRoutes a child.middlewares pfx (child.routes m)) acc =
        .ok acc' →
      acc'.basePath = acc.basePath ∧ acc'.middlewares = acc.middlewares ∧
      ∀ m, acc'.routes m = acc.routes m ++
        (if m ∈ ms then (child.routes m).map (fun r =>
          { r with url := normalizePath [acc.basePath, normalizePath [pfx, r.url]],
                   middlewares := child.middlewares ++ r.middlewares }) else []) := by
  intro ms
  induction ms with
  | nil =>
    intro acc acc' _ _ h
    simp only [List.foldlM_nil] at h
    injection h with h'
    subst h'
    simp
  | cons m0 rest ih =>
    intro acc acc' hwf hnodup h
    rw [List.foldlM_cons] at h
    cases ha : mountRoutes acc child.middlewares pfx (child.routes m0) with
    | error e =>
      rw [ha] at h
      cases h
    | ok acc1 =>
      rw [ha] at h
      have h2 : rest.foldlM
          (fun a m => mountRoutes a child.middlewares pfx (child.routes m)) acc1 =
          .ok acc' := h
      obtain ⟨hb1, hm1, hr1⟩ :=
        mountRoutes_ok child.middlewares pfx m0 (child.routes m0) acc acc1
          (fun r hr => hwf m0 r hr) ha
      rw [List.nodup_cons] at hnodup
      obtain ⟨hb2, hm2, hr2⟩ := ih acc1 acc' hwf hnodup.2 h2
      refine ⟨hb2.trans hb1, hm2.trans hm1, fun m => ?_⟩
      rw [hr2 m, hr1 m, hb1]
      by_cases hm : m = m0
      · subst hm
        rw [if_pos (List.mem_cons_self m rest)]
        rw [if_pos rfl, if_neg hnodup.1]
        simp
      · by_cases hmem : m ∈ rest
        · simp [List.mem_cons, hm, hmem]
        · simp [List.mem_cons, hm, hmem]

/-- C8 (amended): mounting copies each of the mounted router's routes into
the target (in `Map` iteration order per method, then registration order),
and each copy's middleware list is `[mounted router's middlewares...,
route's own middlewares...]` concatenated once at mount time — the
mounting router's own middlewares are NOT baked into the copies (they run
live as router-level middleware at dispatch); the copied list is computed
purely from the mounted router's snapshot (routes and middlewares at mount
time), and the mounted router itself is not modified by the mount. -/
theorem mountRouter_snapshot :
    ∀ (target child : Router) (pfx : String) (t' : Router),
      (∀ m r, r ∈ child.routes m → r.method = m) →
      Router.mountRouter target child pfx = .ok t' →
      t'.basePath = target.basePath ∧
      t'.middlewares = target.middlewares ∧
      ∀ m, t'.routes m = target.routes m ++ (child.routes m).map (fun r =>
        { r with url := normalizePath [target.basePath, normalizePath [pfx, r.url]],
                 middlewares := child.middlewares ++ r.middlewares }) := by
  intro target child pfx t' hwf h
  unfold Router.mountRouter at h
  obtain ⟨hb, hmws, hr⟩ :=
    foldMethods_ok child pfx httpMethodsList target t' hwf (by decide) h
  refine ⟨hb, hmws, fun m => ?_⟩
  have h3 := hr m
  rw [if_pos (by cases m <;> simp [httpMethodsList])] at h3
  exact h3

/-- C8 counterexample: mounting a child (own middleware `passMw1`, route
`/x` with middleware `passMw2`) into a target that itself owns `passMw0`
stores the copied route with a 2-element middleware list — the claimed
3-element list `[mounting router's, mounted router's, route's own]` is not
what is concatenated at mount time. -/
theorem mountRouter_counterexample :
    (Router.mountRouter mountExTarget mountExChild "/").map
      (fun t => (t.routes HttpMethod.GET).map (fun r => (r.url, r.middlewares.length))) =
      .ok [("/x", 2)] ∧
    (mountExTarget.middlewares ++ mountExChild.middlewares ++
      mountExRoute.middlewares).length = 3 :=
  ⟨rfl, rfl⟩

/-- Witness for C8's amended theorem at the concrete routers. -/
theorem mountRouter_snapshot_witness :
    (Router.mountRouter mountExTarget mountExChild "/").map
      (fun t => t.routes HttpMethod.GET) =
    .ok ((mountExChild.routes HttpMethod.GET).map (fun r =>
      { r with url := normalizePath [mountExTarget.basePath, normalizePath ["/", r.url]],
               middlewares := mountExChild.middlewares ++ r.middlewares })) := by
  have hwf : ∀ m r, r ∈ mountExChild.routes m → r.method = m := by
    intro m r hrm
    cases m <;> simp [mountExChild] at hrm
    subst hrm
    rfl
  have hok : (Router.mountRouter mountExTarget mountExChild "/").map
      (fun _ => (0 : Nat)) = .ok 0 := rfl
  cases hmk : Router.mountRouter mountExTarget mountExChild "/" with
  | error e =>
    rw [hmk] at hok
    simp [Except.map] at hok
  | ok t' =>
    obtain ⟨_, _, hr⟩ := mountRouter_snapshot mountExTarget mountExChild "/" t' hwf hmk
    simp only [Except.map]
    rw [hr HttpMethod.GET]
    rfl

end ExpressApi
